import Mathlib

/-
  Verification of the MILO assembly / solve / sensitivity pipeline against its
  specification.  The C++ sources are shallowly embedded over the rationals:
  every residual formula, loop and reduction below is transcribed from the
  corresponding function in the repository (file and line references are given
  on each definition).  External collaborators (Trilinos solvers, MPI, the
  assembly manager's scatter) enter as explicit oracle arguments.
-/

namespace Milo

/-- Finite dot product over index range [0, n): used for the gradient
contractions grad u . grad phi, normals, and the adjoint-residual products. -/
def dotR (n : ℕ) (a b : ℕ → ℚ) : ℚ := ∑ c in Finset.range n, a c * b c

lemma dotR_zero (a b : ℕ → ℚ) : dotR 0 a b = 0 := by
  simp [dotR]

lemma dotR_succ (n : ℕ) (a b : ℕ → ℚ) :
    dotR (n + 1) a b = dotR n a b + a n * b n := by
  simp [dotR, Finset.sum_range_succ]

/-- Sum of pointwise negations of a mapped list. -/
lemma sum_map_neg' {α : Type} (l : List α) (g : α → ℚ) :
    (l.map (fun a => -(g a))).sum = -((l.map g).sum) := by
  induction l with
  | nil => simp
  | cons a l ih => simp [ih]; ring

end Milo

namespace Milo.thermal

/-- Workset data visible to thermal::volumeResidual (src/unnamed/part_000,
lines 67-146): coefficient fields evaluated at (element, quadrature point),
solution values/time-derivatives/gradients at (element, variable, point
[, component]), basis values and gradients at (element, test function, point
[, component]), the variable indices found by setVars, and the coupled-velocity
flag.  The integration weight is pre-multiplied into ebasis and ebasis_grad,
exactly as the source notes. -/
structure VolData where
  rho : ℕ → ℕ → ℚ
  cp : ℕ → ℕ → ℚ
  diff : ℕ → ℕ → ℚ
  source : ℕ → ℕ → ℚ
  sol : ℕ → ℕ → ℕ → ℚ
  sol_dot : ℕ → ℕ → ℕ → ℚ
  sol_grad : ℕ → ℕ → ℕ → ℕ → ℚ
  ebasis : ℕ → ℕ → ℕ → ℚ
  ebasis_grad : ℕ → ℕ → ℕ → ℕ → ℚ
  e_num : ℕ
  ux_num : ℕ
  uy_num : ℕ
  uz_num : ℕ
  have_nsvel : Bool

/-- Amount added by thermal::volumeResidual to res(e, offsets(e_num, i)) for
quadrature point k, transcribed branch by branch from part_000 lines 94-144:
the spaceDim = 1 and spaceDim = 2 branches, and the final else branch (taken
for spaceDim = 3) whose convective term reads
sol_grad(ux,0)*ebasis_grad(0) + sol_grad(uy,1)*ebasis_grad(1) +
sol_grad(uz,0)*ebasis_grad(2). -/
def volumeResidualContrib (spaceDim : ℕ) (d : VolData) (e k i : ℕ) : ℚ :=
  if spaceDim = 1 then
    d.rho e k * d.cp e k * d.sol_dot e d.e_num k * d.ebasis e i k
      + d.diff e k * (d.sol_grad e d.e_num k 0 * d.ebasis_grad e i k 0)
      - d.source e k * d.ebasis e i k
      + (if d.have_nsvel then
          d.sol e d.ux_num k * d.sol_grad e d.e_num k 0 * d.ebasis e i k
        else 0)
  else if spaceDim = 2 then
    d.rho e k * d.cp e k * d.sol_dot e d.e_num k * d.ebasis e i k
      + d.diff e k * (d.sol_grad e d.e_num k 0 * d.ebasis_grad e i k 0
                      + d.sol_grad e d.e_num k 1 * d.ebasis_grad e i k 1)
      - d.source e k * d.ebasis e i k
      + (if d.have_nsvel then
          d.sol e d.ux_num k * d.sol_grad e d.e_num k 0 * d.ebasis e i k
            + d.sol e d.uy_num k * d.sol_grad e d.e_num k 1 * d.ebasis e i k
        else 0)
  else
    d.rho e k * d.cp e k * d.sol_dot e d.e_num k * d.ebasis e i k
      + d.diff e k * (d.sol_grad e d.e_num k 0 * d.ebasis_grad e i k 0
                      + d.sol_grad e d.e_num k 1 * d.ebasis_grad e i k 1
                      + d.sol_grad e d.e_num k 2 * d.ebasis_grad e i k 2)
      - d.source e k * d.ebasis e i k
      + (if d.have_nsvel then
          d.sol_grad e d.ux_num k 0 * d.ebasis_grad e i k 0
            + d.sol_grad e d.uy_num k 1 * d.ebasis_grad e i k 1
            + d.sol_grad e d.uz_num k 0 * d.ebasis_grad e i k 2
        else 0)

/-- Index of the velocity variable for spatial component c (ux, uy, uz). -/
def velVar (d : VolData) (c : ℕ) : ℕ :=
  if c = 0 then d.ux_num else if c = 1 then d.uy_num else d.uz_num

/-- The contribution the specification prescribes at (e, k, i):
rho cp du/dt phi + kappa grad u . grad phi - f phi, plus the convective term
(v . grad u) phi when a velocity field is coupled. -/
def volumeResidualSpec (spaceDim : ℕ) (d : VolData) (e k i : ℕ) : ℚ :=
  d.rho e k * d.cp e k * d.sol_dot e d.e_num k * d.ebasis e i k
    + d.diff e k * dotR spaceDim (d.sol_grad e d.e_num k) (d.ebasis_grad e i k)
    - d.source e k * d.ebasis e i k
    + (if d.have_nsvel then
        dotR spaceDim (fun c => d.sol e (velVar d c) k) (d.sol_grad e d.e_num k)
          * d.ebasis e i k
      else 0)

/-- A concrete data point isolating the 3-D convective term: all basis values
and gradients are 1, the time derivative and the source vanish, kappa = 0,
grad u = (7,7,7), velocity (ux,uy,uz) = (2,3,5), grad ux = (11,0,0),
grad uy = (0,13,0), grad uz = (17,0,0). -/
def exVol : VolData where
  rho := fun _ _ => 0
  cp := fun _ _ => 0
  diff := fun _ _ => 0
  source := fun _ _ => 0
  sol := fun _ v _ => if v = 1 then 2 else if v = 2 then 3 else if v = 3 then 5 else 0
  sol_dot := fun _ _ _ => 0
  sol_grad := fun _ v _ c =>
    if v = 0 then 7
    else if v = 1 then (if c = 0 then 11 else 0)
    else if v = 2 then (if c = 1 then 13 else 0)
    else if v = 3 then (if c = 0 then 17 else 0)
    else 0
  ebasis := fun _ _ _ => 1
  ebasis_grad := fun _ _ _ _ => 1
  e_num := 0
  ux_num := 1
  uy_num := 2
  uz_num := 3
  have_nsvel := true

/-- Claim C2: thermal::volumeResidual adds exactly
rho cp du/dt phi + kappa grad u . grad phi - f phi (+ v . grad u phi when a
velocity is coupled) in every dimension.  The 1-D and 2-D branches do; the 3-D
else branch replaces the convective term v . grad u phi with
grad(ux)_x grad(phi)_x + grad(uy)_y grad(phi)_y + grad(uz)_x grad(phi)_z,
which disagrees with the specified form at the concrete data point above
(41 versus 70), so the code diverges from the claim in 3-D with coupling. -/
theorem thermal_volumeResidual_eval :
    (∀ (d : VolData) (e k i : ℕ),
        volumeResidualContrib 1 d e k i = volumeResidualSpec 1 d e k i)
  ∧ (∀ (d : VolData) (e k i : ℕ),
        volumeResidualContrib 2 d e k i = volumeResidualSpec 2 d e k i)
  ∧ volumeResidualContrib 3 exVol 0 0 0 = 41
  ∧ volumeResidualSpec 3 exVol 0 0 0 = 70
  ∧ (41 : ℚ) ≠ 70 := by
  refine ⟨?_, ?_, ?_, ?_, by norm_num⟩
  · intro d e k i
    by_cases hv : d.have_nsvel <;>
      simp [volumeResidualContrib, volumeResidualSpec, velVar, hv,
        dotR_succ, dotR_zero] <;> ring
  · intro d e k i
    by_cases hv : d.have_nsvel <;>
      simp [volumeResidualContrib, volumeResidualSpec, velVar, hv,
        dotR_succ, dotR_zero] <;> ring
  · simp [volumeResidualContrib, exVol]
    norm_num
  · simp [volumeResidualSpec, exVol, velVar, dotR_succ, dotR_zero]
    norm_num

/-- Workset data visible to thermal::boundaryResidual (part_000, lines
152-255) on the current side: Neumann source and diffusion evaluated at side
quadrature points, side solution values and gradients, side basis values and
gradients, outward normals, the auxiliary (mortar) trace, the element size h,
the side-info kind sideinfo(e, e_num, cside, 0) and neighbor entry
sideinfo(e, e_num, cside, 1), form_param, and the adjoint flag. -/
structure BdyData where
  nsource : ℕ → ℕ → ℚ
  diff_side : ℕ → ℕ → ℚ
  sol : ℕ → ℕ → ℕ → ℚ
  sol_grad : ℕ → ℕ → ℕ → ℕ → ℚ
  ebasis : ℕ → ℕ → ℕ → ℚ
  ebasis_grad : ℕ → ℕ → ℕ → ℕ → ℚ
  normals : ℕ → ℕ → ℕ → ℚ
  aux : ℕ → ℕ → ℕ → ℚ
  h : ℕ → ℚ
  sidekind : ℕ → ℤ
  sidenbr : ℕ → ℤ
  e_num : ℕ
  formparam : ℚ
  isAdjoint : Bool

/-- The sign factor sf: form_param, overridden to 1 in adjoint mode
(part_000 lines 170-173). -/
def sfOf (d : BdyData) : ℚ := if d.isAdjoint then 1 else d.formparam

/-- The Dirichlet datum used on a weak-Dirichlet side: the auxiliary (mortar)
value when the neighbor entry is -1, and 0 otherwise (part_000 lines 214-222;
the user-function branch is commented out in the source). -/
def lambdaOf (d : BdyData) (e k : ℕ) : ℚ :=
  if d.sidenbr e = -1 then d.aux e d.e_num k else 0

/-- The penalty scale 10 * kappa / h (part_000 line 233). -/
def weakDiriScale (d : BdyData) (e k : ℕ) : ℚ := 10 * d.diff_side e k / d.h e

/-- Amount added by thermal::boundaryResidual to res(e, offsets(e_num, i)) for
side quadrature point k, transcribed from part_000 lines 191-253: the Neumann
branch (side kind 2) and the weak-Dirichlet branch (side kind 1), the latter
with its x-line always and its y/z lines guarded on the spatial dimension. -/
def boundaryResidualContrib (spaceDim : ℕ) (d : BdyData) (e k i : ℕ) : ℚ :=
  if d.sidekind e = 2 then
    -(d.nsource e k) * d.ebasis e i k
  else if d.sidekind e = 1 then
    (-(d.diff_side e k) * d.sol_grad e d.e_num k 0 * d.normals e k 0 * d.ebasis e i k
      - sfOf d * d.diff_side e k * d.ebasis_grad e i k 0 * d.normals e k 0
          * (d.sol e d.e_num k - lambdaOf d e k)
      + weakDiriScale d e k * (d.sol e d.e_num k - lambdaOf d e k) * d.ebasis e i k)
    + (if 1 < spaceDim then
        -(d.diff_side e k) * d.sol_grad e d.e_num k 1 * d.normals e k 1 * d.ebasis e i k
          - sfOf d * d.diff_side e k * d.ebasis_grad e i k 1 * d.normals e k 1
              * (d.sol e d.e_num k - lambdaOf d e k)
      else 0)
    + (if 2 < spaceDim then
        -(d.diff_side e k) * d.sol_grad e d.e_num k 2 * d.normals e k 2 * d.ebasis e i k
          - sfOf d * d.diff_side e k * d.ebasis_grad e i k 2 * d.normals e k 2
              * (d.sol e d.e_num k - lambdaOf d e k)
      else 0)
  else 0

/-- The symmetric Nitsche form the specification prescribes on weak-Dirichlet
sides: -kappa (grad u . n) phi - s kappa (grad phi . n) (u - g)
+ (10 kappa / h) (u - g) phi, with g the Dirichlet datum. -/
def boundaryResidualSpecNitsche (spaceDim : ℕ) (d : BdyData) (e k i : ℕ) : ℚ :=
  -(d.diff_side e k) * dotR spaceDim (d.sol_grad e d.e_num k) (d.normals e k)
      * d.ebasis e i k
    - sfOf d * d.diff_side e k * dotR spaceDim (d.ebasis_grad e i k) (d.normals e k)
        * (d.sol e d.e_num k - lambdaOf d e k)
    + (10 * d.diff_side e k / d.h e) * (d.sol e d.e_num k - lambdaOf d e k)
        * d.ebasis e i k

/-- Claim C3: on sides of kind 1 the boundary residual is exactly the
symmetric Nitsche form with s = 1 in adjoint mode and s = form_param
otherwise, and on sides of kind 2 it is -g_N phi, in dimensions 1, 2 and 3. -/
theorem thermal_boundaryResidual_forms (spaceDim : ℕ)
    (hd : spaceDim = 1 ∨ spaceDim = 2 ∨ spaceDim = 3)
    (d : BdyData) (e k i : ℕ) :
    (d.sidekind e = 1 →
      boundaryResidualContrib spaceDim d e k i = boundaryResidualSpecNitsche spaceDim d e k i)
  ∧ (d.sidekind e = 2 →
      boundaryResidualContrib spaceDim d e k i = -(d.nsource e k) * d.ebasis e i k)
  ∧ sfOf d = (if d.isAdjoint then 1 else d.formparam) := by
  refine ⟨?_, ?_, rfl⟩
  · intro hk
    rcases hd with h | h | h <;> subst h <;>
      simp [boundaryResidualContrib, boundaryResidualSpecNitsche, hk,
        weakDiriScale, dotR_succ, dotR_zero] <;> ring
  · intro hk
    rcases hd with h | h | h <;> subst h <;>
      simp [boundaryResidualContrib, hk]

/-- Concrete instantiation data for the boundary-residual theorem: a
weak-Dirichlet side in two dimensions. -/
def exBdy : BdyData where
  nsource := fun _ _ => 4
  diff_side := fun _ _ => 2
  sol := fun _ _ _ => 3
  sol_grad := fun _ _ _ c => if c = 0 then 5 else 6
  ebasis := fun _ _ _ => 1
  ebasis_grad := fun _ _ _ _ => 1
  normals := fun _ _ c => if c = 0 then 1 else 0
  aux := fun _ _ _ => 7
  h := fun _ => 1
  sidekind := fun _ => 1
  sidenbr := fun _ => -1
  e_num := 0
  formparam := 1
  isAdjoint := false

/-- Witness for the boundary-residual theorem at spaceDim = 2 and the
weak-Dirichlet data above. -/
theorem thermal_boundaryResidual_forms_witness :
    boundaryResidualContrib 2 exBdy 0 0 0 = boundaryResidualSpecNitsche 2 exBdy 0 0 0 :=
  (thermal_boundaryResidual_forms 2 (Or.inr (Or.inl rfl)) exBdy 0 0 0).1 rfl

end Milo.thermal

namespace Milo.nlsolver

/-- State of solver::nonlinearSolver at exit (solverInterface.cpp lines
1372-1549): the iteration counter NLiter, the last value of NLerr_scaled, and
the number of update steps (linear solve + solution update) performed. -/
structure Result where
  iters : ℕ
  scaled : ℚ
  updates : ℕ
deriving Repr, DecidableEq

/-- NLerr_scaled as computed inside iteration i (lines 1440-1450): at
iteration 0 it is 1 when the initial residual infinity-norm exceeds 1.0e-14
and 0 otherwise; afterwards it is the ratio to the initial norm.  The sequence
rnorm i is the infinity-norm of the residual assembled at iteration i; it is
an oracle for the assembly and the preceding updates. -/
def scaledAt (rnorm : ℕ → ℚ) : ℕ → ℚ
  | 0 => if 1 / 10 ^ 14 < rnorm 0 then 1 else 0
  | i + 1 => rnorm (i + 1) / rnorm 0

/-- The Newton while-loop (lines 1394-1536): while NLerr_scaled exceeds NLtol
and NLiter has not reached the cap, assemble, recompute NLerr_scaled, and
perform the update step only when the new scaled residual still exceeds NLtol.
The fuel argument is the number of loop iterations still allowed, so that
it + fuel is the iteration cap throughout. -/
def go (tol : ℚ) (rnorm : ℕ → ℚ) : ℕ → ℚ → ℕ → ℕ → Result
  | it, s, upd, 0 => ⟨it, s, upd⟩
  | it, s, upd, f + 1 =>
    if tol < s then
      go tol rnorm (it + 1) (scaledAt rnorm it)
        (if tol < scaledAt rnorm it then upd + 1 else upd) f
    else ⟨it, s, upd⟩

/-- The iteration cap: MaxNLiter, overridden to 2 in adjoint mode
(lines 1389-1392). -/
def maxiterOf (MaxNLiter : ℕ) (useadjoint : Bool) : ℕ :=
  if useadjoint then 2 else MaxNLiter

/-- solver::nonlinearSolver: NLerr_scaled starts at 10 * NLtol and the loop
runs with cap maxiterOf. -/
def nonlinearSolver (NLtol : ℚ) (MaxNLiter : ℕ) (useadjoint : Bool)
    (rnorm : ℕ → ℚ) : Result :=
  go NLtol rnorm 0 (10 * NLtol) 0 (maxiterOf MaxNLiter useadjoint)

lemma go_stop (tol : ℚ) (rnorm : ℕ → ℚ) (it : ℕ) (s : ℚ) (upd f : ℕ)
    (h : ¬ tol < s) : go tol rnorm it s upd f = ⟨it, s, upd⟩ := by
  cases f with
  | zero => rfl
  | succ f => simp [go, h]

lemma go_iters_le (tol : ℚ) (rnorm : ℕ → ℚ) (f : ℕ) :
    ∀ it s upd, (go tol rnorm it s upd f).iters ≤ it + f := by
  induction f with
  | zero => intro it s upd; simp [go]
  | succ f ih =>
    intro it s upd
    by_cases h : tol < s
    · simp only [go, if_pos h]
      exact le_trans (ih (it + 1) _ _) (by omega)
    · simp [go, h]

lemma go_exit (tol : ℚ) (rnorm : ℕ → ℚ) (f : ℕ) :
    ∀ it s upd, (go tol rnorm it s upd f).scaled ≤ tol
      ∨ (go tol rnorm it s upd f).iters = it + f := by
  induction f with
  | zero => intro it s upd; right; simp [go]
  | succ f ih =>
    intro it s upd
    by_cases h : tol < s
    · simp only [go, if_pos h]
      rcases ih (it + 1) (scaledAt rnorm it)
          (if tol < scaledAt rnorm it then upd + 1 else upd) with hc | hc
      · exact Or.inl hc
      · right; omega
    · left; simp [go, h]; exact le_of_not_lt h

lemma go_no_early (tol : ℚ) (rnorm : ℕ → ℚ) (f : ℕ) :
    ∀ it s upd i, it ≤ i → i + 1 < (go tol rnorm it s upd f).iters →
      tol < scaledAt rnorm i := by
  induction f with
  | zero =>
    intro it s upd i hi hlt
    have hlt' : i + 1 < it := hlt
    omega
  | succ f ih =>
    intro it s upd i hi hlt
    by_cases h : tol < s
    · simp only [go, if_pos h] at hlt
      rcases Nat.eq_or_lt_of_le hi with heq | hgt
      · subst heq
        by_cases h2 : tol < scaledAt rnorm it
        · exact h2
        · rw [go_stop tol rnorm (it + 1) _ _ f h2] at hlt
          have hlt' : it + 1 + 1 ≤ it + 1 := hlt
          omega
      · exact ih (it + 1) _ _ i hgt hlt
    · rw [go_stop tol rnorm it s upd _ h] at hlt
      have hlt' : i + 1 < it := hlt
      omega

/-- Claim C1: the Newton loop terminates exactly when the scaled residual has
fallen to NLtol or below or the iteration count has reached the cap (first two
conjuncts: the exit condition holds at exit, and no iteration before the last
saw a scaled residual at or below NLtol); when the initial absolute residual
norm is below 1.0e-14 the scaled residual is set to 0 and the solver stops
after that single pass with no update step taken; and in adjoint mode at most
two iterations run regardless of MaxNLiter. -/
theorem nonlinearSolver_stopping (NLtol : ℚ) (MaxNLiter : ℕ)
    (useadjoint : Bool) (rnorm : ℕ → ℚ) :
    ((nonlinearSolver NLtol MaxNLiter useadjoint rnorm).scaled ≤ NLtol
      ∨ (nonlinearSolver NLtol MaxNLiter useadjoint rnorm).iters
          = maxiterOf MaxNLiter useadjoint)
  ∧ (∀ i, i + 1 < (nonlinearSolver NLtol MaxNLiter useadjoint rnorm).iters →
      NLtol < scaledAt rnorm i)
  ∧ (rnorm 0 < 1 / 10 ^ 14 → 0 < NLtol → 0 < maxiterOf MaxNLiter useadjoint →
      nonlinearSolver NLtol MaxNLiter useadjoint rnorm = ⟨1, 0, 0⟩)
  ∧ (useadjoint = true →
      (nonlinearSolver NLtol MaxNLiter useadjoint rnorm).iters ≤ 2) := by
  refine ⟨?_, ?_, ?_, ?_⟩
  · simpa using go_exit NLtol rnorm (maxiterOf MaxNLiter useadjoint) 0 (10 * NLtol) 0
  · intro i hi
    exact go_no_early NLtol rnorm (maxiterOf MaxNLiter useadjoint) 0 (10 * NLtol) 0 i
      (Nat.zero_le i) hi
  · intro hr htol hmax
    obtain ⟨f, hf⟩ : ∃ f, maxiterOf MaxNLiter useadjoint = f + 1 :=
      ⟨maxiterOf MaxNLiter useadjoint - 1, by omega⟩
    have hentry : NLtol < 10 * NLtol := by linarith
    have hs0 : scaledAt rnorm 0 = 0 := if_neg (not_lt.mpr (le_of_lt hr))
    unfold nonlinearSolver
    rw [hf]
    simp only [go, if_pos hentry, hs0]
    have : ¬ NLtol < (0 : ℚ) := not_lt.mpr (le_of_lt htol)
    rw [if_neg this, go_stop NLtol rnorm 1 0 0 f this]
  · intro ha
    have := go_iters_le NLtol rnorm (maxiterOf MaxNLiter useadjoint) 0 (10 * NLtol) 0
    simp [maxiterOf, ha] at this ⊢
    simpa [nonlinearSolver, maxiterOf, ha] using this

/-- Witness for the stopping theorem: with a zero initial residual, NLtol =
1/2, MaxNLiter = 5 and adjoint mode (cap 2), the solver performs exactly one
pass, no update, and reports scaled residual 0. -/
theorem nonlinearSolver_stopping_witness :
    nonlinearSolver (1 / 2) 5 true (fun _ => 0) = ⟨1, 0, 0⟩ :=
  (nonlinearSolver_stopping (1 / 2) 5 true (fun _ => 0)).2.2.1
    (by norm_num) (by norm_num) (by norm_num [maxiterOf])

end Milo.nlsolver

namespace Milo.transient

/-- The zero vector of degrees of freedom. -/
def zvec : ℕ → ℚ := fun _ => 0

/-- The time step size deltat = finaltime / numsteps
(solverInterface.cpp line 1231). -/
def deltatOf (finaltime : ℚ) (numsteps : ℕ) : ℚ := finaltime / numsteps

/-- The time-stepping coefficient alpha (lines 1232-1240): 1/deltat for time
order 1, 3.0/2.0/deltat for order 2, and 0 otherwise. -/
def alphaOf (time_order : ℕ) (deltat : ℚ) : ℚ :=
  if time_order = 1 then 1 / deltat
  else if time_order = 2 then 3 / 2 / deltat
  else 0

/-- The u_dot seeding of the forward branch (lines 1306-1319): first order or
the very first step uses alpha*u - alpha*solmat(timeiter); second order uses
the three-level stencil with solmat(timeiter) and solmat(timeiter-1); for any
other order u_dot is left unchanged (the source has no final else).  The
trajectory columns gathered so far are solmat, with column timeiter read
through getD. -/
def seedUdot (time_order : ℕ) (alpha : ℚ) (timeiter : ℕ) (u : ℕ → ℚ)
    (solmat : List (ℕ → ℚ)) (prev : ℕ → ℚ) : ℕ → ℚ :=
  if time_order = 1 ∨ timeiter = 0 then
    fun i => alpha * u i - alpha * (solmat.getD timeiter zvec) i
  else if time_order = 2 then
    fun i => alpha * u i - alpha * (4 / 3) * (solmat.getD timeiter zvec) i
      + alpha * (1 / 3) * (solmat.getD (timeiter - 1) zvec) i
  else prev

/-- One pass of the forward time loop of solver::transientSolver (lines
1257-1365, non-adjoint branch), iterated from the initial state: carry the
current (u, u_dot) pair and the stored trajectory columns (column 0 is the
initial condition); each step seeds u_dot, calls the nonlinear solver (the
oracle solve, returning the updated (u, u_dot)), and appends u to the
trajectory (solmat column timeiter + 1). -/
def forwardState (time_order : ℕ) (alpha : ℚ)
    (solve : ℕ → (ℕ → ℚ) → (ℕ → ℚ) → ((ℕ → ℚ) × (ℕ → ℚ)))
    (initial : ℕ → ℚ) : ℕ → ((ℕ → ℚ) × ((ℕ → ℚ) × List (ℕ → ℚ)))
  | 0 => (initial, zvec, [initial])
  | t + 1 =>
    let st := forwardState time_order alpha solve initial t
    let udot := seedUdot time_order alpha t st.1 st.2.2 st.2.1
    let r := solve t st.1 udot
    (r.1, r.2, st.2.2 ++ [r.1])

/-- Claim C4: deltat = finaltime/numSteps; alpha is 1/deltat at order 1 and
3/(2 deltat) at order 2; the forward pass seeds u_dot = alpha (u - u_prev) for
first order and for the very first step, and the BDF-2 stencil
alpha u - alpha (4/3) u_prev + alpha (1/3) u_prev_prev for second order on
later steps; and each step stores the solver output u as the next trajectory
column. -/
theorem transientSolver_forward (time_order : ℕ) (alpha : ℚ)
    (solve : ℕ → (ℕ → ℚ) → (ℕ → ℚ) → ((ℕ → ℚ) × (ℕ → ℚ))) (initial : ℕ → ℚ) :
    (∀ (f : ℚ) (n : ℕ), deltatOf f n = f / n)
  ∧ (∀ dt : ℚ, alphaOf 1 dt = 1 / dt ∧ alphaOf 2 dt = 3 / (2 * dt))
  ∧ (∀ (t : ℕ) (u : ℕ → ℚ) (cols : List (ℕ → ℚ)) (prev : ℕ → ℚ),
      time_order = 1 ∨ t = 0 →
      seedUdot time_order alpha t u cols prev
        = fun i => alpha * (u i - (cols.getD t zvec) i))
  ∧ (∀ (t : ℕ) (u : ℕ → ℚ) (cols : List (ℕ → ℚ)) (prev : ℕ → ℚ),
      time_order = 2 → t ≠ 0 →
      seedUdot time_order alpha t u cols prev
        = fun i => alpha * u i - alpha * (4 / 3) * (cols.getD t zvec) i
            + alpha * (1 / 3) * (cols.getD (t - 1) zvec) i)
  ∧ (∀ t : ℕ,
      (forwardState time_order alpha solve initial (t + 1)).2.2
        = (forwardState time_order alpha solve initial t).2.2
          ++ [(solve t (forwardState time_order alpha solve initial t).1
                (seedUdot time_order alpha t
                  (forwardState time_order alpha solve initial t).1
                  (forwardState time_order alpha solve initial t).2.2
                  (forwardState time_order alpha solve initial t).2.1)).1]) := by
  refine ⟨fun f n => rfl, ?_, ?_, ?_, ?_⟩
  · intro dt
    constructor
    · simp [alphaOf]
    · simp [alphaOf]
      rw [div_div]
  · intro t u cols prev hcond
    rw [seedUdot, if_pos hcond]
    funext i
    ring
  · intro t u cols prev h2 ht
    have hcond : ¬ (time_order = 1 ∨ t = 0) := by
      rintro (h | h)
      · omega
      · exact ht h
    rw [seedUdot, if_neg hcond, if_pos h2]
  · intro t
    simp [forwardState]

/-- Witness for the forward-stepping theorem: first-order seeding at step 0
with alpha = 5 and the constant-3 state over an empty history. -/
theorem transientSolver_forward_witness :
    seedUdot 1 5 0 (fun _ => 3) [] zvec
      = fun i => 5 * ((fun _ => (3 : ℚ)) i - (([] : List (ℕ → ℚ)).getD 0 zvec) i) :=
  (transientSolver_forward 1 5 (fun _ u ud => (u, ud)) (fun _ => 0)).2.2.1
    0 (fun _ => 3) [] zvec (Or.inl rfl)

end Milo.transient

namespace Milo.adjoint

/-- The forward-trajectory column loaded into u at adjoint time step t
(solverInterface.cpp line 1290): lsol column numivec - timeiter - 1 with
numivec = numsteps + 1. -/
def loadedU (numsteps : ℕ) (lsol : ℕ → ℕ → ℚ) (t : ℕ) : ℕ → ℚ :=
  lsol (numsteps + 1 - t - 1)

/-- The u_dot reconstruction at adjoint time step t (line 1294, first order):
alpha lsol(numivec - t - 1) - alpha lsol(numivec - t - 2). -/
def loadedUdot (numsteps : ℕ) (alpha : ℚ) (lsol : ℕ → ℕ → ℚ) (t : ℕ) : ℕ → ℚ :=
  fun i => alpha * lsol (numsteps + 1 - t - 1) i - alpha * lsol (numsteps + 1 - t - 2) i

/-- The adjPrev reset of the subgrid nonlinear solver (part_001 lines
1254-1263): the stored adjPrev array is zeroed exactly when assembling in
adjoint mode while the is_final_time flag is set. -/
def resetAdjPrev (isAdjoint is_final_time : Bool) : Bool :=
  isAdjoint && is_final_time

/-- Loop state of the adjoint branch of solver::transientSolver: the running
time, the is_final_time flag, the adjoint solution, the accumulated gradient,
and the stored adjoint columns. -/
structure AdjState where
  current_time : ℚ
  is_final_time : Bool
  phi : ℕ → ℚ
  grad : ℕ → ℚ
  stored : List (ℕ → ℚ)

/-- Observable record of one adjoint time step: the time at which the step
solves, the is_final_time flag it was assembled with, the forward column
index it loaded, and whether adjPrev was reset during its (adjoint-mode)
nonlinear solve. -/
structure StepTrace where
  time : ℚ
  isFinal : Bool
  uCol : ℕ
  adjPrevReset : Bool

/-- One iteration of the adjoint branch (lines 1286-1354): load u and u_dot
from the forward trajectory, solve the adjoint (oracle adjSolve, updating
phi), store phi, accumulate the sensitivity contribution (oracle contrib,
the computeSensitivities call of line 1342) into the gradient, then decrease
the time by deltat and clear is_final_time. -/
def adjointStep (numsteps : ℕ) (deltat alpha : ℚ) (lsol : ℕ → ℕ → ℚ)
    (adjSolve : ℕ → (ℕ → ℚ) → (ℕ → ℚ) → (ℕ → ℚ) → (ℕ → ℚ))
    (contrib : ℕ → ℕ → ℚ) (t : ℕ) (st : AdjState) : AdjState × StepTrace :=
  let u := loadedU numsteps lsol t
  let udot := loadedUdot numsteps alpha lsol t
  let phi2 := adjSolve t u udot st.phi
  (⟨st.current_time - deltat, false, phi2,
    fun p => st.grad p + contrib t p, st.stored ++ [phi2]⟩,
   ⟨st.current_time, st.is_final_time, numsteps + 1 - t - 1,
    resetAdjPrev true st.is_final_time⟩)

/-- Initial adjoint loop state (lines 1245-1248): current_time = finaltime
and is_final_time set. -/
def adjointInit (finaltime : ℚ) (phi0 : ℕ → ℚ) : AdjState :=
  ⟨finaltime, true, phi0, fun _ => 0, []⟩

/-- The adjoint loop after t steps. -/
def adjointRun (numsteps : ℕ) (finaltime deltat alpha : ℚ) (lsol : ℕ → ℕ → ℚ)
    (adjSolve : ℕ → (ℕ → ℚ) → (ℕ → ℚ) → (ℕ → ℚ) → (ℕ → ℚ))
    (contrib : ℕ → ℕ → ℚ) (phi0 : ℕ → ℚ) : ℕ → AdjState
  | 0 => adjointInit finaltime phi0
  | t + 1 =>
    (adjointStep numsteps deltat alpha lsol adjSolve contrib t
      (adjointRun numsteps finaltime deltat alpha lsol adjSolve contrib phi0 t)).1

/-- The observable record of adjoint step t. -/
def adjointTrace (numsteps : ℕ) (finaltime deltat alpha : ℚ) (lsol : ℕ → ℕ → ℚ)
    (adjSolve : ℕ → (ℕ → ℚ) → (ℕ → ℚ) → (ℕ → ℚ) → (ℕ → ℚ))
    (contrib : ℕ → ℕ → ℚ) (phi0 : ℕ → ℚ) (t : ℕ) : StepTrace :=
  (adjointStep numsteps deltat alpha lsol adjSolve contrib t
    (adjointRun numsteps finaltime deltat alpha lsol adjSolve contrib phi0 t)).2

lemma adjointRun_time (numsteps : ℕ) (finaltime deltat alpha : ℚ)
    (lsol : ℕ → ℕ → ℚ)
    (adjSolve : ℕ → (ℕ → ℚ) → (ℕ → ℚ) → (ℕ → ℚ) → (ℕ → ℚ))
    (contrib : ℕ → ℕ → ℚ) (phi0 : ℕ → ℚ) (t : ℕ) :
    (adjointRun numsteps finaltime deltat alpha lsol adjSolve contrib phi0 t).current_time
      = finaltime - t * deltat := by
  induction t with
  | zero => simp [adjointRun, adjointInit]
  | succ t ih =>
    simp only [adjointRun, adjointStep]
    rw [ih]
    push_cast
    ring

lemma adjointRun_final (numsteps : ℕ) (finaltime deltat alpha : ℚ)
    (lsol : ℕ → ℕ → ℚ)
    (adjSolve : ℕ → (ℕ → ℚ) → (ℕ → ℚ) → (ℕ → ℚ) → (ℕ → ℚ))
    (contrib : ℕ → ℕ → ℚ) (phi0 : ℕ → ℚ) (t : ℕ) :
    (adjointRun numsteps finaltime deltat alpha lsol adjSolve contrib phi0 t).is_final_time
      = decide (t = 0) := by
  cases t with
  | zero => simp [adjointRun, adjointInit]
  | succ t => simp [adjointRun, adjointStep]

/-- Claim C5: the adjoint pass starts at finaltime with is_final_time set,
decreases the time by deltat after each step (so step t runs at
finaltime - t deltat), is flagged final only on the first (terminal) step,
resets adjPrev exactly on that step, loads the forward column
numsteps - t whose forward time (numsteps - t) deltat equals the step's time
when finaltime = numsteps deltat, reconstructs u_dot from the two trajectory
columns around it, and accumulates the per-step sensitivity contribution into
the gradient after every step. -/
theorem transientSolver_adjoint (numsteps : ℕ) (finaltime deltat alpha : ℚ)
    (lsol : ℕ → ℕ → ℚ)
    (adjSolve : ℕ → (ℕ → ℚ) → (ℕ → ℚ) → (ℕ → ℚ) → (ℕ → ℚ))
    (contrib : ℕ → ℕ → ℚ) (phi0 : ℕ → ℚ) :
    (∀ t, (adjointTrace numsteps finaltime deltat alpha lsol adjSolve contrib phi0 t).time
        = finaltime - t * deltat)
  ∧ (∀ t, (adjointTrace numsteps finaltime deltat alpha lsol adjSolve contrib phi0 t).isFinal
        = decide (t = 0))
  ∧ (∀ t, (adjointTrace numsteps finaltime deltat alpha lsol adjSolve contrib phi0 t).adjPrevReset
        = decide (t = 0))
  ∧ (∀ t, t ≤ numsteps →
      (adjointTrace numsteps finaltime deltat alpha lsol adjSolve contrib phi0 t).uCol
        = numsteps - t)
  ∧ (∀ t, t ≤ numsteps → finaltime = numsteps * deltat →
      (adjointTrace numsteps finaltime deltat alpha lsol adjSolve contrib phi0 t).time
        = ((numsteps - t : ℕ) : ℚ) * deltat)
  ∧ (∀ t, loadedUdot numsteps alpha lsol t
        = fun i => alpha * (loadedU numsteps lsol t i - lsol (numsteps - t - 1) i))
  ∧ (∀ n p, (adjointRun numsteps finaltime deltat alpha lsol adjSolve contrib phi0 n).grad p
        = ∑ t in Finset.range n, contrib t p) := by
  refine ⟨?_, ?_, ?_, ?_, ?_, ?_, ?_⟩
  · intro t
    simp only [adjointTrace, adjointStep]
    exact adjointRun_time numsteps finaltime deltat alpha lsol adjSolve contrib phi0 t
  · intro t
    simp only [adjointTrace, adjointStep]
    exact adjointRun_final numsteps finaltime deltat alpha lsol adjSolve contrib phi0 t
  · intro t
    simp only [adjointTrace, adjointStep, resetAdjPrev, Bool.true_and]
    exact adjointRun_final numsteps finaltime deltat alpha lsol adjSolve contrib phi0 t
  · intro t ht
    simp only [adjointTrace, adjointStep]
    omega
  · intro t ht hft
    simp only [adjointTrace, adjointStep]
    rw [adjointRun_time numsteps finaltime deltat alpha lsol adjSolve contrib phi0 t, hft]
    rw [Nat.cast_sub ht]
    ring
  · intro t
    funext i
    simp only [loadedUdot, loadedU]
    have : numsteps + 1 - t - 2 = numsteps - t - 1 := by omega
    rw [this]
    ring
  · intro n p
    induction n with
    | zero => simp [adjointRun, adjointInit]
    | succ n ih =>
      simp only [adjointRun, adjointStep]
      rw [ih, Finset.sum_range_succ]

/-- Witness for the adjoint theorem: with 2 steps, deltat = 3 and
finaltime = 6, step 1 runs at forward time (2 - 1) * 3 = 3. -/
theorem transientSolver_adjoint_witness :
    (adjointTrace 2 6 3 1 (fun _ _ => 0) (fun _ _ _ p => p) (fun _ _ => 0)
        (fun _ => 0) 1).time = ((2 - 1 : ℕ) : ℚ) * 3 :=
  (transientSolver_adjoint 2 6 3 1 (fun _ _ => 0) (fun _ _ _ p => p)
      (fun _ _ => 0) (fun _ => 0)).2.2.2.2.1 1 (by norm_num) (by norm_num)

end Milo.adjoint

namespace Milo.sens

/-- Per-MPI-rank data entering the scalar-parameter branch of
solver::computeSensitivities (solverInterface.cpp lines 1968-2047): the number
of owned rows, the local adjoint vector a2, and the columns of the exported
residual multivector res, whose column p holds the derivative of the local
residual with respect to active parameter p as produced by the single
assembleJacRes pass of line 1998. -/
structure RankData where
  nown : ℕ
  a2 : ℕ → ℚ
  dRdtheta : ℕ → ℕ → ℚ

/-- The flag triple (build_jacobian, compute_sens, compute_disc_sens) passed
to assembleJacRes by the scalar-parameter sensitivity pass
(solverInterface.cpp line 1998). -/
def sensAssembleFlags : Bool × Bool × Bool := (false, true, false)

/-- The per-rank local sensitivity localsens[p] = -(sum_i a2_i res_{i,p})
(lines 2019-2023, coarse-scale branch). -/
def localsens (r : RankData) (p : ℕ) : ℚ :=
  -(Milo.dotR r.nown r.a2 (r.dRdtheta p))

/-- obj_sens.fastAccessDx(p) guarded by the derivative-array size
(lines 2035-2038). -/
def objDx (dJ : List ℚ) (p : ℕ) : ℚ :=
  if p < dJ.length then dJ.getD p 0 else 0

/-- The gradient assembled by computeSensitivities for the active scalar
parameters: for each p, the all-ranks sum (Teuchos reduceAll with REDUCE_SUM)
of localsens plus the objective derivative, pushed back in order onto the
initially empty gradient vector (lines 2029-2046). -/
def computeSensitivities (ranks : List RankData) (dJ : List ℚ)
    (nactive : ℕ) : List ℚ :=
  (List.range nactive).map
    (fun p => (ranks.map (fun r => localsens r p)).sum + objDx dJ p)

/-- Claim C6: each gradient entry equals minus the rank-summed product of the
adjoint with the parameter-seeded residual column, plus the explicit objective
derivative, and the residual columns come from a single residual-only pass
with flags (build_jacobian = false, compute_sens = true,
compute_disc_sens = false). -/
theorem computeSensitivities_gradient (ranks : List RankData) (dJ : List ℚ)
    (nactive p : ℕ) (hp : p < nactive) (hj : p < dJ.length) :
    (computeSensitivities ranks dJ nactive).getD p 0
      = -((ranks.map (fun r => Milo.dotR r.nown r.a2 (r.dRdtheta p))).sum)
        + dJ.getD p 0
  ∧ sensAssembleFlags = (false, true, false) := by
  constructor
  · have hlen : p < ((List.range nactive).map
        (fun p => (ranks.map (fun r => localsens r p)).sum + objDx dJ p)).length := by
      simpa using hp
    rw [computeSensitivities, List.getD_eq_getElem _ _ hlen]
    rw [List.getElem_map, List.getElem_range]
    simp only [localsens]
    rw [Milo.sum_map_neg' ranks (fun r => Milo.dotR r.nown r.a2 (r.dRdtheta p))]
    rw [objDx, if_pos hj]
  · rfl

/-- Concrete data for the witness: one rank with two owned rows. -/
def exRank : RankData where
  nown := 2
  a2 := fun i => if i = 0 then 3 else 5
  dRdtheta := fun _ i => if i = 0 then 7 else 11

/-- Witness for the scalar-sensitivity theorem: one rank, one active
parameter, objective derivative 13; the gradient entry is
-(3*7 + 5*11) + 13 = -63. -/
theorem computeSensitivities_gradient_witness :
    (computeSensitivities [exRank] [13] 1).getD 0 0
      = -(([exRank].map (fun r => Milo.dotR r.nown r.a2 (r.dRdtheta 0))).sum)
        + ([(13 : ℚ)]).getD 0 0 :=
  ((computeSensitivities_gradient [exRank] [13] 1 0 (by norm_num)
      (by norm_num)).1)

end Milo.sens

namespace Milo.discsens

/-- Modelled from the spec: the rectangular Jacobian dR/dp that assembleJacRes
(the assembly manager, which is not among the provided source files) assembles
into the parameter map when called with compute_disc_sens = true
(solverInterface.cpp lines 1927-1937): dRdp t p i is the derivative of
residual entry i with respect to discretized-parameter DOF p at time step t.
The per-rank record also carries the adjoint vector loaded from the stored
adjoint trajectory at each step (lines 1899-1901). -/
structure DiscRank where
  nown : ℕ
  dRdp : ℕ → ℕ → ℕ → ℚ
  phi : ℕ → ℕ → ℚ

/-- The flag triple (build_jacobian, compute_sens, compute_disc_sens) passed
to assembleJacRes by the discretized-parameter pass (line 1927). -/
def discAssembleFlags : Bool × Bool × Bool := (true, false, true)

/-- Row p of J->apply(*a2, *sens) at time step t (line 1939): the parameter-map
matrix applied to the owned adjoint vector. -/
def stepSens (r : DiscRank) (t p : ℕ) : ℚ :=
  Milo.dotR r.nown (r.dRdp t p) (r.phi t)

/-- totalsens accumulated over the time steps by
totalsens->update(1.0, *sens, 1.0) (lines 1891-1942). -/
def totalsens (r : DiscRank) (nsteps p : ℕ) : ℚ :=
  (List.range nsteps).foldl (fun acc t => acc + stepSens r t p) 0

/-- The gradient entry returned by solver::computeDiscretizedSensitivities:
the all-ranks sum (reduceAll with REDUCE_SUM, lines 1954-1960) of the
accumulated totalsens. -/
def computeDiscretizedSensitivities (ranks : List DiscRank)
    (nsteps p : ℕ) : ℚ :=
  (ranks.map (fun r => totalsens r nsteps p)).sum

lemma foldl_add_eq_sum (f : ℕ → ℚ) (n : ℕ) :
    ∀ init : ℚ, (List.range n).foldl (fun acc t => acc + f t) init
      = init + ∑ t in Finset.range n, f t := by
  induction n with
  | zero => intro init; simp
  | succ n ih =>
    intro init
    rw [List.range_succ, List.foldl_append, ih init]
    simp [Finset.sum_range_succ]
    ring

lemma totalsens_eq_sum (r : DiscRank) (nsteps p : ℕ) :
    totalsens r nsteps p = ∑ t in Finset.range nsteps, stepSens r t p := by
  rw [totalsens, foldl_add_eq_sum]
  simp

/-- One rank, one owned row, dR/dp identically 1 and adjoint identically 1. -/
def exDiscRank : DiscRank where
  nown := 1
  dRdp := fun _ _ _ => 1
  phi := fun _ _ => 1

/-- Counterexample to claim C7 as stated: with one rank, one time step, one
parameter DOF, dR/dp = [1] and phi = [1], the code's gradient entry is
(dR/dp)^T phi = +1, whereas the claimed value -(dR/dp)^T phi is -1. -/
theorem computeDiscretizedSensitivities_sign_counterexample :
    computeDiscretizedSensitivities [exDiscRank] 1 0 = 1
  ∧ -(([exDiscRank].map (fun r => totalsens r 1 0)).sum) = -1
  ∧ computeDiscretizedSensitivities [exDiscRank] 1 0
      ≠ -(([exDiscRank].map (fun r => totalsens r 1 0)).sum) := by
  have h1 : computeDiscretizedSensitivities [exDiscRank] 1 0 = 1 := by
    simp [computeDiscretizedSensitivities, totalsens_eq_sum, stepSens,
      exDiscRank, Milo.dotR]
  have h2 : (([exDiscRank].map (fun r => totalsens r 1 0)).sum) = 1 := by
    simp [totalsens_eq_sum, stepSens, exDiscRank, Milo.dotR]
  refine ⟨h1, by rw [h2], ?_⟩
  rw [h1, h2]
  norm_num

/-- Claim C7 amended: the gradient entry equals +(dR/dp)^T phi (the minus sign
of the claim is absent from the code path), one entry per parameter DOF: it is
the sum over the time steps of the per-step rank-summed contribution, i.e. the
identical pathway runs on each time step and the per-step contributions are
summed, and the whole is summed over MPI ranks. -/
theorem computeDiscretizedSensitivities_eq (ranks : List DiscRank)
    (nsteps p : ℕ) :
    computeDiscretizedSensitivities ranks nsteps p
      = ∑ t in Finset.range nsteps, (ranks.map (fun r => stepSens r t p)).sum := by
  rw [computeDiscretizedSensitivities]
  induction ranks with
  | nil => simp
  | cons r ranks ih =>
    simp only [List.map_cons, List.sum_cons]
    rw [totalsens_eq_sum, ih, ← Finset.sum_add_distrib]

end Milo.discsens

namespace Milo.linsolve

/-- The preconditioner quality test of the domain-decomposition branch of
solver::linearSolver (solverInterface.cpp lines 2448-2470): a construction is
re-attempted when the reported condition estimate exceeds 1.0e13 or falls
below 1.0. -/
def badCond (c : ℚ) : Bool := decide ((10 : ℚ) ^ 13 < c) || decide (c < 1)

/-- The (AZ_athresh, AZ_rthresh) settings of the four re-setup attempts, in
the order the source tries them (lines 2452-2468): (1e-5, 0), (1e-5, 0.01),
(1e-2, 0), (1e-2, 0.01). -/
def cascadeParams : List (ℚ × ℚ) :=
  [(1 / 10 ^ 5, 0), (1 / 10 ^ 5, 1 / 100), (1 / 10 ^ 2, 0), (1 / 10 ^ 2, 1 / 100)]

/-- Trace of one domain-decomposition linear solve: the re-setup attempts
performed (with their thresholding parameters), the last condition estimate,
whether the SAD PRECONDITIONER message was printed, and whether the Krylov
iteration was still entered. -/
structure LinSolveTrace where
  attempts : List (ℚ × ℚ)
  finalCond : ℚ
  sadMessage : Bool
  iterateCalled : Bool

/-- The domain-decomposition branch of solver::linearSolver (lines 2439-2492),
with ConstructPreconditioner abstracted as the oracle est mapping the current
thresholding parameters (none for the initial construction) to the condition
estimate it reports.  Whatever happens, the function falls through to
linsolver.Iterate and returns normally; only the message differs. -/
def linearSolverDomDecomp (est : Option (ℚ × ℚ) → ℚ) : LinSolveTrace :=
  let c0 := est none
  if badCond c0 then
    let c1 := est (some (1 / 10 ^ 5, 0))
    if badCond c1 then
      let c2 := est (some (1 / 10 ^ 5, 1 / 100))
      if badCond c2 then
        let c3 := est (some (1 / 10 ^ 2, 0))
        if badCond c3 then
          let c4 := est (some (1 / 10 ^ 2, 1 / 100))
          ⟨cascadeParams, c4, decide ((10 : ℚ) ^ 13 < c4), true⟩
        else ⟨cascadeParams.take 3, c3, false, true⟩
      else ⟨cascadeParams.take 2, c2, false, true⟩
    else ⟨cascadeParams.take 1, c1, false, true⟩
  else ⟨[], c0, false, true⟩

/-- The non-convergence report at the end of solver::nonlinearSolver
(solverInterface.cpp lines 1538-1547): a message is printed exactly on rank 0,
outside adjoint mode, when the iteration count exceeded MaxNLiter or the
scaled residual still exceeds NLtol, and the verbosity is above 1.  Nothing
else happens: the function then returns normally. -/
def reportsNonConvergence (rank verbosity : ℕ) (useadjoint : Bool)
    (NLiter MaxNLiter : ℕ) (scaled tol : ℚ) : Bool :=
  decide (rank = 0) && (!useadjoint)
    && (decide (MaxNLiter < NLiter) || decide (tol < scaled))
    && decide (1 < verbosity)

/-- Claim C8: a condition estimate above the quality threshold triggers the
cascade of re-setup attempts, which walks a prefix of the fixed parameter list
(nonempty as soon as the initial estimate is bad, full before the giving-up
message appears), the thresholding parameters grow strictly along the cascade,
the Krylov solve is still entered (the solver returns normally), and a
subsequent nonlinear non-convergence is reported as a rank-0 message (and only
on rank 0) rather than raising a fatal error. -/
theorem linearSolver_failure_cascade (est : Option (ℚ × ℚ) → ℚ)
    (rank verbosity NLiter MaxNLiter : ℕ) (scaled tol : ℚ) :
    (badCond (est none) = true →
      ∃ k, 1 ≤ k ∧ k ≤ 4 ∧ (linearSolverDomDecomp est).attempts = cascadeParams.take k)
  ∧ (badCond (est none) = false → (linearSolverDomDecomp est).attempts = [])
  ∧ List.Chain' (fun a b : ℚ × ℚ => a.1 < b.1 ∨ (a.1 = b.1 ∧ a.2 < b.2)) cascadeParams
  ∧ ((linearSolverDomDecomp est).sadMessage = true →
      (linearSolverDomDecomp est).attempts = cascadeParams)
  ∧ (linearSolverDomDecomp est).iterateCalled = true
  ∧ (tol < scaled → 1 < verbosity →
      reportsNonConvergence 0 verbosity false NLiter MaxNLiter scaled tol = true)
  ∧ (rank ≠ 0 →
      reportsNonConvergence rank verbosity false NLiter MaxNLiter scaled tol = false) := by
  refine ⟨?_, ?_, ?_, ?_, ?_, ?_, ?_⟩
  · intro h0
    by_cases h1 : badCond (est (some (1 / 10 ^ 5, 0)))
    · by_cases h2 : badCond (est (some (1 / 10 ^ 5, 1 / 100)))
      · by_cases h3 : badCond (est (some (1 / 10 ^ 2, 0)))
        · exact ⟨4, by norm_num, by norm_num, by
            simp only [linearSolverDomDecomp, h0, h1, h2, h3,
              eq_self_iff_true, if_true]
            rfl⟩
        · exact ⟨3, by norm_num, by norm_num, by
            simp only [linearSolverDomDecomp, h0, h1, h2, h3,
              eq_self_iff_true, if_true, Bool.false_eq_true, if_false]⟩
      · exact ⟨2, by norm_num, by norm_num, by
          simp only [linearSolverDomDecomp, h0, h1, h2,
            eq_self_iff_true, if_true, Bool.false_eq_true, if_false]⟩
    · exact ⟨1, by norm_num, by norm_num, by
        simp only [linearSolverDomDecomp, h0, h1,
          eq_self_iff_true, if_true, Bool.false_eq_true, if_false]⟩
  · intro h0
    simp only [linearSolverDomDecomp, h0, Bool.false_eq_true, if_false]
  · simp only [cascadeParams, List.chain'_cons, List.chain'_singleton, and_true]
    norm_num
  · intro hsad
    by_cases h0 : badCond (est none)
    · by_cases h1 : badCond (est (some (1 / 10 ^ 5, 0)))
      · by_cases h2 : badCond (est (some (1 / 10 ^ 5, 1 / 100)))
        · by_cases h3 : badCond (est (some (1 / 10 ^ 2, 0)))
          · simp only [linearSolverDomDecomp, h0, h1, h2, h3,
              eq_self_iff_true, if_true]
          · simp only [linearSolverDomDecomp, h0, h1, h2, h3,
              eq_self_iff_true, if_true, Bool.false_eq_true, if_false] at hsad
        · simp only [linearSolverDomDecomp, h0, h1, h2,
            eq_self_iff_true, if_true, Bool.false_eq_true, if_false] at hsad
      · simp only [linearSolverDomDecomp, h0, h1,
          eq_self_iff_true, if_true, Bool.false_eq_true, if_false] at hsad
    · simp only [linearSolverDomDecomp, h0, Bool.false_eq_true, if_false] at hsad
  · by_cases h0 : badCond (est none)
    · by_cases h1 : badCond (est (some (1 / 10 ^ 5, 0)))
      · by_cases h2 : badCond (est (some (1 / 10 ^ 5, 1 / 100)))
        · by_cases h3 : badCond (est (some (1 / 10 ^ 2, 0)))
          · simp only [linearSolverDomDecomp, h0, h1, h2, h3,
              eq_self_iff_true, if_true]
          · simp only [linearSolverDomDecomp, h0, h1, h2, h3,
              eq_self_iff_true, if_true, Bool.false_eq_true, if_false]
        · simp only [linearSolverDomDecomp, h0, h1, h2,
            eq_self_iff_true, if_true, Bool.false_eq_true, if_false]
      · simp only [linearSolverDomDecomp, h0, h1,
          eq_self_iff_true, if_true, Bool.false_eq_true, if_false]
    · simp only [linearSolverDomDecomp, h0, Bool.false_eq_true, if_false]
  · intro hs hv
    simp [reportsNonConvergence, hs, hv]
  · intro hr
    simp [reportsNonConvergence, hr]

/-- Witness for the cascade theorem: an oracle whose condition estimate is
always 1e14 (above the threshold) walks the full cascade, and a failed
nonlinear solve (scaled residual 1 above tolerance 1/2, verbosity 2) is
reported on rank 0. -/
theorem linearSolver_failure_cascade_witness :
    (∃ k, 1 ≤ k ∧ k ≤ 4 ∧
      (linearSolverDomDecomp (fun _ => 10 ^ 14)).attempts = cascadeParams.take k)
  ∧ reportsNonConvergence 0 2 false 3 3 1 (1 / 2) = true :=
  ⟨(linearSolver_failure_cascade (fun _ => 10 ^ 14) 0 2 3 3 1 (1 / 2)).1
      (by norm_num [badCond]),
   (linearSolver_failure_cascade (fun _ => 10 ^ 14) 0 2 3 3 1 (1 / 2)).2.2.2.2.2.1
      (by norm_num) (by norm_num)⟩

end Milo.linsolve

namespace Milo.multiscale

/-- The subgrid cost estimate set in SubGridFEM2::addMacro (part_001 line
349): 1.0 * (number of cells) * (elements per cell) * time_steps. -/
def cost_estimate (ncells numElem time_steps : ℕ) : ℚ :=
  1 * (ncells : ℚ) * (numElem : ℚ) * (time_steps : ℚ)

/-- Global minimum over the per-rank costs (the first Teuchos reduceAll with
REDUCE_MIN, solverInterface.cpp line 1264). -/
def reduceMin (costs : List ℚ) : ℚ := costs.foldl min (costs.headD 0)

/-- Global maximum over the per-rank costs (what a reduceAll with REDUCE_MAX
computes). -/
def reduceMax (costs : List ℚ) : ℚ := costs.foldl max (costs.headD 0)

/-- The load-balancing factor actually printed by solver::transientSolver
(lines 1259-1272): gmin receives the REDUCE_MIN result, but the REDUCE_MAX
call on line 1267 also writes its result into gmin (the source passes the
address of gmin, not of gmax), so gmax keeps its initial value 0.0 and the
printed quantity is gmax / gmin with gmin now holding the maximum. -/
def loadBalanceFactorPrinted (costs : List ℚ) : ℚ :=
  let gmin0 := reduceMin costs
  let gmin := reduceMax costs
  let gmax : ℚ := 0
  gmax / gmin

/-- Claim C9: the cost estimate is element count times the number of sub time
steps, but the reported load-imbalance factor is not max/min: because the
REDUCE_MAX result overwrites gmin and gmax stays 0, with per-rank costs 1 and
2 the code prints 0/2 = 0 while max/min = 2. -/
theorem loadBalance_report_eval :
    (∀ n e t : ℕ, cost_estimate n e t = ((n * e : ℕ) : ℚ) * (t : ℕ))
  ∧ loadBalanceFactorPrinted [1, 2] = 0
  ∧ reduceMax [1, 2] / reduceMin [1, 2] = 2
  ∧ (0 : ℚ) ≠ 2 := by
  refine ⟨?_, ?_, ?_, by norm_num⟩
  · intro n e t
    simp only [cost_estimate]
    push_cast
    ring
  · simp [loadBalanceFactorPrinted, reduceMax]
  · simp [reduceMax, reduceMin]

end Milo.multiscale

namespace Milo.subgrid

/-- The side-info rewrite of SubGridFEM2::addMacro (part_001 lines 216-235):
the subcell side info copies the parent entry slot by slot, and any side whose
kind slot (slot 0) equals 1 (weak Dirichlet) has its kind set to 4 and its
neighbor slot (slot 1) set to -1, before the cells are handed to the subgrid
discretization and assembly. -/
def subSideinfo (parent : ℕ → ℕ → ℕ → ℤ) (i j s : ℕ) : ℤ :=
  if parent i j 0 = 1 then
    (if s = 0 then 4 else if s = 1 then -1 else parent i j s)
  else parent i j s

/-- The flux projection of SubGridFEM2::updateFlux (part_001 lines 1633-1670):
the amount added to macrowkset.res(macroelemindex, offsets(n, j)) by subgrid
element c on subgrid side s, guarded by the two sideinfo(..., 1) == -1 checks
of lines 1636 and 1658; inside the guard it is the mortar-basis-weighted flux
integrated with the side quadrature weights and the fractional weight fwt. -/
def updateFluxRes (sideinfo : ℕ → ℕ → ℕ → ℕ → ℤ)
    (mortarbasis flux : ℕ → ℕ → ℕ → ℚ) (cwts : ℕ → ℕ → ℚ) (fwt : ℚ)
    (numip c n s j : ℕ) : ℚ :=
  if sideinfo 0 0 s 1 = -1 ∧ sideinfo c n s 1 = -1 then
    ∑ i in Finset.range numip, mortarbasis c j i * flux c n i * cwts c i * fwt
  else 0

/-- Claim C10: after registration every subgrid side has kind different from
1, so the weak-Dirichlet branch of the thermal boundary residual (which fires
exactly on kind 1, after the kind-2 Neumann test) contributes nothing on such
sides; a side whose parent kind was 1 now carries kind 4 and neighbor -1; and
the updateFlux projection into the macro residual is nonzero only on sides
carrying the -1 neighbor marker. -/
theorem subgrid_interface_sideinfo (parent : ℕ → ℕ → ℕ → ℤ) (i j : ℕ)
    (sideinfo : ℕ → ℕ → ℕ → ℕ → ℤ) (mortarbasis flux : ℕ → ℕ → ℕ → ℚ)
    (cwts : ℕ → ℕ → ℚ) (fwt : ℚ) (numip c n s jj : ℕ) :
    subSideinfo parent i j 0 ≠ 1
  ∧ (parent i j 0 = 1 →
      subSideinfo parent i j 0 = 4 ∧ subSideinfo parent i j 1 = -1)
  ∧ (∀ (sd : ℕ) (d : Milo.thermal.BdyData) (e k ii : ℕ),
      d.sidekind e = subSideinfo parent i j 0 → d.sidekind e ≠ 2 →
      Milo.thermal.boundaryResidualContrib sd d e k ii = 0)
  ∧ (updateFluxRes sideinfo mortarbasis flux cwts fwt numip c n s jj ≠ 0 →
      sideinfo c n s 1 = -1) := by
  have hne : subSideinfo parent i j 0 ≠ 1 := by
    unfold subSideinfo
    by_cases hp : parent i j 0 = 1
    · simp [hp]
    · simp [hp]
  refine ⟨hne, ?_, ?_, ?_⟩
  · intro hp
    unfold subSideinfo
    simp [hp]
  · intro sd d e k ii hk h2
    rw [Milo.thermal.boundaryResidualContrib, if_neg h2, if_neg (hk ▸ hne)]
  · intro hnz
    by_contra hmark
    apply hnz
    rw [updateFluxRes, if_neg]
    rintro ⟨_, h⟩
    exact hmark h

/-- A parent side-info function whose kind slot is 1 and an all-ones flux
configuration for the witness below. -/
def exParent : ℕ → ℕ → ℕ → ℤ := fun _ _ s => if s = 0 then 1 else 9

/-- A side-info function carrying the -1 neighbor marker everywhere. -/
def exSideinfo : ℕ → ℕ → ℕ → ℕ → ℤ := fun _ _ _ slot => if slot = 1 then -1 else 0

/-- Witness for the subgrid interface theorem: the weak-Dirichlet parent side
is rewritten to kind 4 with neighbor -1, and a nonzero flux projection forces
the -1 marker. -/
theorem subgrid_interface_sideinfo_witness :
    (subSideinfo exParent 0 0 0 = 4 ∧ subSideinfo exParent 0 0 1 = -1)
  ∧ exSideinfo 0 0 0 1 = -1 :=
  ⟨(subgrid_interface_sideinfo exParent 0 0 exSideinfo (fun _ _ _ => 1)
      (fun _ _ _ => 1) (fun _ _ => 1) 1 1 0 0 0 0).2.1 (by simp [exParent]),
   (subgrid_interface_sideinfo exParent 0 0 exSideinfo (fun _ _ _ => 1)
      (fun _ _ _ => 1) (fun _ _ => 1) 1 1 0 0 0 0).2.2.2
      (by simp [updateFluxRes, exSideinfo])⟩

end Milo.subgrid
